/- Verification development for the HimSafeNet mesh relay service
   (MeshService.kt / MeshModule.kt). The Kotlin source is shallowly embedded:
   strings are Lean strings (lists of Char), Kotlin Long/Int fields are Lean
   Int (no arithmetic in the service can overflow their ranges), and the
   callback-driven service is modelled as a step function on an explicit
   engine state, emitting a list of observable actions per call. Log.d calls
   and notification drawing are not observable and are not modelled; status
   events are modelled where a claim depends on them (the broadcast and
   periodic status paths). -/
import Mathlib

/-! ## Codec (serialize / deserialize in MeshService.kt)

Kotlin string helpers are modelled on `List Char`:
`trim(*chars)` / `trim()` as `trimPred`, `split(",")` as `splitOnChar`,
`split(":", limit = 2)` as `splitLimit2`, `replace` of the quote escape as
`escapeQuote` / `unescapeQuote`, `toLong()` / `toInt()` as `kToLong`
(`Long`/`Int` both embed into `Int`), and `${n}` decimal printing as
`intToDecimal`. Kotlin `trim()` trims whitespace; the codec only ever meets
ASCII whitespace, modelled by `isWs`. -/

def digitChar : Nat → Char
  | 0 => '0' | 1 => '1' | 2 => '2' | 3 => '3' | 4 => '4'
  | 5 => '5' | 6 => '6' | 7 => '7' | 8 => '8' | _ => '9'

def natDigitsAux : Nat → Nat → List Char
  | 0, _ => []
  | fuel + 1, n =>
    if n < 10 then [digitChar n]
    else natDigitsAux fuel (n / 10) ++ [digitChar (n % 10)]

def natDigits (n : Nat) : List Char := natDigitsAux (n + 1) n

def intToDecimal (i : Int) : List Char :=
  if i < 0 then '-' :: natDigits i.natAbs else natDigits i.toNat

def digitVal (c : Char) : Option Nat :=
  if 48 ≤ c.toNat ∧ c.toNat ≤ 57 then some (c.toNat - 48) else none

def parseDigitsAux (acc : Nat) : List Char → Option Nat
  | [] => some acc
  | c :: cs =>
    match digitVal c with
    | some d => parseDigitsAux (acc * 10 + d) cs
    | none => none

def parseDigits (xs : List Char) : Option Nat :=
  if xs.isEmpty then none else parseDigitsAux 0 xs

def kToLong : List Char → Option Int
  | [] => none
  | c :: rest =>
    if c = '-' then (parseDigits rest).map (fun n => -(n : Int))
    else if c = '+' then (parseDigits rest).map (fun n => (n : Int))
    else (parseDigits (c :: rest)).map (fun n => (n : Int))

def escapeQuote : List Char → List Char
  | [] => []
  | c :: rest => if c = '"' then '\\' :: '"' :: escapeQuote rest else c :: escapeQuote rest

def unescapeQuote : List Char → List Char
  | [] => []
  | [c] => [c]
  | c :: d :: rest =>
    if c = '\\' ∧ d = '"' then '"' :: unescapeQuote rest
    else c :: unescapeQuote (d :: rest)

def isWs (c : Char) : Bool := c == ' ' || c == '\t' || c == '\n' || c == '\r'

def isBrace (c : Char) : Bool := c == '\x7b' || c == '\x7d'

def isQuote (c : Char) : Bool := c == '"'

def dropEnd (p : Char → Bool) (xs : List Char) : List Char :=
  (xs.reverse.dropWhile p).reverse

def trimPred (p : Char → Bool) (xs : List Char) : List Char :=
  dropEnd p (xs.dropWhile p)

def splitOnChar (sep : Char) : List Char → List (List Char)
  | [] => [[]]
  | c :: cs =>
    if c = sep then [] :: splitOnChar sep cs
    else
      match splitOnChar sep cs with
      | [] => [[c]]
      | p :: ps => (c :: p) :: ps

def splitLimit2 (sep : Char) (xs : List Char) : List (List Char) :=
  match xs.dropWhile (fun c => !(c == sep)) with
  | [] => [xs.takeWhile (fun c => !(c == sep))]
  | _ :: tl => [xs.takeWhile (fun c => !(c == sep)), tl]

/-- Mutable-map puts, modelled so that a later put of the same key wins on
lookup, as for the Kotlin `mutableMapOf` the decoder builds. -/
def mapPut (k v : List Char) (m : List (List Char × List Char)) :
    List (List Char × List Char) := (k, v) :: m

def mapLookup (k : List Char) : List (List Char × List Char) → Option (List Char)
  | [] => none
  | (k2, v) :: rest => if k2 = k then some v else mapLookup k rest

structure AlertMessage where
  id : String
  text : String
  timestamp : Int
  ttl : Int
deriving DecidableEq

/-- The wire form of `serialize`, character for character:
`\x7b"id":"<id>","text":"<escaped text>","timestamp":<ts>,"ttl":<ttl>\x7d`. -/
def serializeChars (msg : AlertMessage) : List Char :=
  '\x7b' :: ("\"id\":\"".data ++ msg.id.data ++ ['"']
    ++ ',' :: ("\"text\":\"".data ++ escapeQuote msg.text.data ++ ['"']
    ++ ',' :: ("\"timestamp\":".data ++ intToDecimal msg.timestamp
    ++ ',' :: ("\"ttl\":".data ++ intToDecimal msg.ttl))))
  ++ ['\x7d']

def serialize (msg : AlertMessage) : String := String.mk (serializeChars msg)

/-- The decoder's loop over `json.trim('\x7b','\x7d').split(",")`: each piece is
split at its first `:`; a piece without a `:` throws (caught as null overall),
modelled by `none`. Keys get `trim().trim('"')`, values get `trim()`. -/
def buildMap : List (List Char) → List (List Char × List Char) →
    Option (List (List Char × List Char))
  | [], m => some m
  | p :: ps, m =>
    match splitLimit2 ':' p with
    | [k, v] => buildMap ps (mapPut (trimPred isQuote (trimPred isWs k)) (trimPred isWs v) m)
    | _ => none

def deserialize (json : String) : Option AlertMessage := do
  let m ← buildMap (splitOnChar ',' (trimPred isBrace json.data)) []
  let idv ← mapLookup "id".data m
  let textv ← mapLookup "text".data m
  let tsv ← mapLookup "timestamp".data m
  let ttlv ← mapLookup "ttl".data m
  let ts ← kToLong tsv
  let ttl ← kToLong ttlv
  some (AlertMessage.mk (String.mk (trimPred isQuote idv))
    (String.mk (unescapeQuote (trimPred isQuote textv))) ts ttl)

/-! ## Relay engine state and observable actions

The service's mutable fields (`connectedEndpoints`, `seenAlertIds`,
`lostEndpoints`, the four booleans) form `MeshState`. The two concurrent-set
fields keep list form with set semantics (an element is added only when
absent); `lostEndpoints` is an endpoint-to-timestamp map with unique keys.
Each callback or host call is one atomic step that returns the new state and
the list of observable actions (events emitted to the host and calls issued
to the Nearby transport, plus scheduled delayed posts). -/

inductive MeshAction where
  | status (message : String)
  | alertReceived (msg : AlertMessage)
  | sendPayload (endpointId : String) (bytes : String)
  | requestConnection (endpointId : String)
  | transportStartDiscovery
  | transportStopDiscovery
  | transportStartAdvertising
  | transportStopAdvertising
  | transportStopAllEndpoints
  | scheduleStartDiscovery (delayMs : Nat)
  | scheduleStartAdvertising (delayMs : Nat)
  | scheduleReconnectProbe (endpointId : String) (delayMs : Nat)
deriving DecidableEq

structure MeshState where
  connectedEndpoints : List String
  seenAlertIds : List String
  lostEndpoints : List (String × Int)
  isAdvertising : Bool
  isDiscovering : Bool
  isStoppingDiscovery : Bool
  pendingDiscoveryStart : Bool
deriving DecidableEq

def initMeshState : MeshState :=
  { connectedEndpoints := [], seenAlertIds := [], lostEndpoints := [],
    isAdvertising := false, isDiscovering := false,
    isStoppingDiscovery := false, pendingDiscoveryStart := false }

def addToSet (x : String) (l : List String) : List String :=
  if x ∈ l then l else l ++ [x]

def mapPutL (k : String) (v : Int) (m : List (String × Int)) : List (String × Int) :=
  (k, v) :: m.filter (fun p => p.1 != k)

def mapRemoveL (k : String) (m : List (String × Int)) : List (String × Int) :=
  m.filter (fun p => p.1 != k)

def lookupLost (k : String) (m : List (String × Int)) : Option Int :=
  (m.find? (fun p => p.1 == k)).map (fun p => p.2)

/-- `broadcast(json, excludeEndpointId)`: the recipients are the connected
endpoints minus the excluded sender; `sendPayload` is issued per recipient and
both the empty and the non-empty branch end by emitting the literal
connection-status event of the source. -/
def broadcast (s : MeshState) (json : String) (excludeEndpointId : Option String) :
    List MeshAction :=
  let recipients := match excludeEndpointId with
    | some ex => s.connectedEndpoints.filter (fun x => x != ex)
    | none => s.connectedEndpoints
  if recipients.isEmpty then
    [MeshAction.status ("📊 Status: " ++ toString s.connectedEndpoints.length ++ " peers connected")]
  else
    recipients.map (fun eid => MeshAction.sendPayload eid json)
      ++ [MeshAction.status ("📊 Status: " ++ toString s.connectedEndpoints.length ++ " peers connected")]

/-- `sendAlert(text)`: builds the alert with a fresh uuid (modelled as the
parameter `freshId`), the current time `now` and ttl 8, then broadcasts with
no exclusion. It mutates no engine state and emits no AlertReceived. -/
def sendAlert (s : MeshState) (text : String) (freshId : String) (now : Int) :
    List MeshAction :=
  broadcast s (serialize (AlertMessage.mk freshId text now 8)) none

/-- `handleIncoming(json, senderEndpointId)`: undecodable payloads are dropped;
a duplicate id (set add returns false) is dropped; otherwise the alert is
emitted and, when `ttl > 1`, relayed with `ttl - 1` excluding the sender. -/
def handleIncoming (s : MeshState) (json : String) (senderEndpointId : String) :
    MeshState × List MeshAction :=
  match deserialize json with
  | none => (s, [])
  | some msg =>
    if s.seenAlertIds.contains msg.id then (s, [])
    else
      let s2 := { s with seenAlertIds := s.seenAlertIds ++ [msg.id] }
      if msg.ttl > 1 then
        (s2, MeshAction.alertReceived msg
          :: broadcast s2 (serialize { msg with ttl := msg.ttl - 1 }) (some senderEndpointId))
      else
        (s2, [MeshAction.alertReceived msg])

/-- `startDiscovery()` (the synchronous part; the success and failure
listeners are the separate inputs below). -/
def startDiscovery (s : MeshState) : MeshState × List MeshAction :=
  if s.isDiscovering then (s, [])
  else if s.isStoppingDiscovery then ({ s with pendingDiscoveryStart := true }, [])
  else (s, [MeshAction.transportStartDiscovery])

def onDiscoveryStartSuccess (s : MeshState) : MeshState × List MeshAction :=
  ({ s with isDiscovering := true, pendingDiscoveryStart := false }, [])

def onDiscoveryStartFailure (s : MeshState) (alreadyRunning : Bool) :
    MeshState × List MeshAction :=
  if alreadyRunning then
    ({ s with isDiscovering := true, pendingDiscoveryStart := false }, [])
  else
    ({ s with isDiscovering := false, pendingDiscoveryStart := false },
     [MeshAction.scheduleStartDiscovery 5000])

/-- `stopDiscovery()`: the transport stop is synchronous in the source
(`stopSucceeds` distinguishes the try branch from the catch branch); in both,
`isStoppingDiscovery` is set and cleared within the call, and a pending start
request is re-posted with a 1 s (success) or 2 s (failure) delay. -/
def stopDiscovery (s : MeshState) (stopSucceeds : Bool) : MeshState × List MeshAction :=
  if !s.isDiscovering then (s, [])
  else if s.isStoppingDiscovery then (s, [])
  else
    let s2 := { s with isDiscovering := false, isStoppingDiscovery := false }
    if stopSucceeds then
      (s2, MeshAction.transportStopDiscovery
        :: (if s.pendingDiscoveryStart then [MeshAction.scheduleStartDiscovery 1000] else []))
    else
      (s2, MeshAction.transportStopDiscovery
        :: (if s.pendingDiscoveryStart then [MeshAction.scheduleStartDiscovery 2000] else []))

def startAdvertising (s : MeshState) : MeshState × List MeshAction :=
  if s.isAdvertising then (s, []) else (s, [MeshAction.transportStartAdvertising])

def onAdvertisingStartSuccess (s : MeshState) : MeshState × List MeshAction :=
  ({ s with isAdvertising := true }, [])

def onAdvertisingStartFailure (s : MeshState) : MeshState × List MeshAction :=
  ({ s with isAdvertising := false }, [MeshAction.scheduleStartAdvertising 5000])

/-- `onConnectionResult`: success adds to connected and clears any lost entry;
failure marks lost only when the endpoint is not connected. -/
def onConnectionResult (s : MeshState) (endpointId : String) (success : Bool)
    (now : Int) : MeshState × List MeshAction :=
  if success then
    ({ s with connectedEndpoints := addToSet endpointId s.connectedEndpoints,
              lostEndpoints := mapRemoveL endpointId s.lostEndpoints }, [])
  else if s.connectedEndpoints.contains endpointId then (s, [])
  else ({ s with lostEndpoints := mapPutL endpointId now s.lostEndpoints }, [])

/-- `onDisconnected`: a connected endpoint is removed, marked lost, discovery
is nudged when idle, and a 5 s reconnect probe is scheduled. -/
def onDisconnected (s : MeshState) (endpointId : String) (now : Int) :
    MeshState × List MeshAction :=
  if s.connectedEndpoints.contains endpointId then
    ({ s with connectedEndpoints := s.connectedEndpoints.filter (fun x => x != endpointId),
              lostEndpoints := mapPutL endpointId now s.lostEndpoints },
     (if !s.isDiscovering && !s.isStoppingDiscovery then [MeshAction.transportStartDiscovery] else [])
       ++ [MeshAction.scheduleReconnectProbe endpointId 5000])
  else (s, [])

/-- The body of the 5 s post from `onDisconnected`. -/
def reconnectProbe (s : MeshState) (endpointId : String) (now : Int) :
    MeshState × List MeshAction :=
  if s.connectedEndpoints.contains endpointId then (s, [])
  else
    match lookupLost endpointId s.lostEndpoints with
    | some lostTime =>
      if now - lostTime < 120000 then
        (s, if !s.isDiscovering && !s.isStoppingDiscovery
            then [MeshAction.transportStartDiscovery] else [])
      else ({ s with lostEndpoints := mapRemoveL endpointId s.lostEndpoints }, [])
    | none => (s, [])

/-- `onEndpointFound`: an already-connected endpoint only has its residual
lost entry cleared; otherwise the lost entry (if any) is cleared and a
connection is requested. -/
def onEndpointFound (s : MeshState) (endpointId : String) : MeshState × List MeshAction :=
  if s.connectedEndpoints.contains endpointId then
    ({ s with lostEndpoints := mapRemoveL endpointId s.lostEndpoints }, [])
  else
    ({ s with lostEndpoints := mapRemoveL endpointId s.lostEndpoints },
     [MeshAction.requestConnection endpointId])

/-- The failure listener of the retried `requestConnection`: marks the
endpoint lost when it is still not connected. -/
def onConnRetryFailed (s : MeshState) (endpointId : String) (now : Int) :
    MeshState × List MeshAction :=
  if s.connectedEndpoints.contains endpointId then (s, [])
  else ({ s with lostEndpoints := mapPutL endpointId now s.lostEndpoints }, [])

/-- `onEndpointLost`: removes from connected, records the loss time
unconditionally, and nudges discovery when the endpoint was connected. -/
def onEndpointLost (s : MeshState) (endpointId : String) (now : Int) :
    MeshState × List MeshAction :=
  let wasConnected := s.connectedEndpoints.contains endpointId
  ({ s with connectedEndpoints := s.connectedEndpoints.filter (fun x => x != endpointId),
            lostEndpoints := mapPutL endpointId now s.lostEndpoints },
   if wasConnected && !s.isDiscovering && !s.isStoppingDiscovery
   then [MeshAction.transportStartDiscovery] else [])

/-- The 30 s periodic discovery task: evicts lost entries older than 120 s,
then restarts discovery when there is a reason to and discovery is idle. -/
def discoveryMaintenance (s : MeshState) (now : Int) : MeshState × List MeshAction :=
  let cleaned := s.lostEndpoints.filter (fun p => !(decide (now - p.2 > 120000)))
  if (!cleaned.isEmpty || s.connectedEndpoints.isEmpty)
      && !s.isDiscovering && !s.isStoppingDiscovery then
    ({ s with lostEndpoints := cleaned }, [MeshAction.transportStartDiscovery])
  else ({ s with lostEndpoints := cleaned }, [])

/-- The 10 s periodic status task: emits the connection status, restarts
advertising if stopped, and restarts discovery when idle with a reason. -/
def statusTick (s : MeshState) : MeshState × List MeshAction :=
  (s, [MeshAction.status ("📊 Status: " ++ toString s.connectedEndpoints.length ++ " peers connected")]
    ++ (if !s.isAdvertising then [MeshAction.transportStartAdvertising] else [])
    ++ (if !s.isDiscovering && !s.isStoppingDiscovery
          && (!s.lostEndpoints.isEmpty || s.connectedEndpoints.isEmpty)
        then [MeshAction.transportStartDiscovery] else []))

/-- `onDestroy`: peers and flags are cleared; `seenAlertIds` is not. -/
def onDestroy (s : MeshState) : MeshState × List MeshAction :=
  ({ connectedEndpoints := [], seenAlertIds := s.seenAlertIds, lostEndpoints := [],
     isAdvertising := false, isDiscovering := false,
     isStoppingDiscovery := false, pendingDiscoveryStart := false },
   [MeshAction.transportStopAdvertising, MeshAction.transportStopDiscovery,
    MeshAction.transportStopAllEndpoints])

inductive EngineInput where
  | connectionResult (endpointId : String) (success : Bool) (now : Int)
  | disconnected (endpointId : String) (now : Int)
  | reconnectProbeFired (endpointId : String) (now : Int)
  | endpointFound (endpointId : String)
  | connRetryFailed (endpointId : String) (now : Int)
  | endpointLost (endpointId : String) (now : Int)
  | maintenanceTick (now : Int)
  | statusCheckTick
  | payloadReceived (json : String) (senderEndpointId : String)
  | sendAlertCmd (text : String) (freshId : String) (now : Int)
  | startDiscoveryCall
  | stopDiscoveryCall (stopSucceeds : Bool)
  | discoveryStartSucceeded
  | discoveryStartFailed (alreadyRunning : Bool)
  | advertisingStartSucceeded
  | advertisingStartFailed
  | startAdvertisingCall
  | serviceDestroyed
deriving DecidableEq

def applyInput : EngineInput → MeshState → MeshState × List MeshAction
  | EngineInput.connectionResult e ok now, s => onConnectionResult s e ok now
  | EngineInput.disconnected e now, s => onDisconnected s e now
  | EngineInput.reconnectProbeFired e now, s => reconnectProbe s e now
  | EngineInput.endpointFound e, s => onEndpointFound s e
  | EngineInput.connRetryFailed e now, s => onConnRetryFailed s e now
  | EngineInput.endpointLost e now, s => onEndpointLost s e now
  | EngineInput.maintenanceTick now, s => discoveryMaintenance s now
  | EngineInput.statusCheckTick, s => statusTick s
  | EngineInput.payloadReceived json sender, s => handleIncoming s json sender
  | EngineInput.sendAlertCmd text fid now, s => (s, sendAlert s text fid now)
  | EngineInput.startDiscoveryCall, s => startDiscovery s
  | EngineInput.stopDiscoveryCall ok, s => stopDiscovery s ok
  | EngineInput.discoveryStartSucceeded, s => onDiscoveryStartSuccess s
  | EngineInput.discoveryStartFailed already, s => onDiscoveryStartFailure s already
  | EngineInput.advertisingStartSucceeded, s => onAdvertisingStartSuccess s
  | EngineInput.advertisingStartFailed, s => onAdvertisingStartFailure s
  | EngineInput.startAdvertisingCall, s => startAdvertising s
  | EngineInput.serviceDestroyed, s => onDestroy s

/-- The engine states reachable from service creation. -/
inductive Reachable : MeshState → Prop
  | init : Reachable initMeshState
  | step (i : EngineInput) {s : MeshState} :
      Reachable s → Reachable (applyInput i s).1

/-! ## Host-facing module (MeshModule.kt) -/

structure ModuleSendResult where
  rejected : Bool
  dispatchedText : Option String
deriving DecidableEq

/-- `MeshModule.sendAlert(text, promise)`: builds the SEND_ALERT intent with
the given text, starts the service and resolves the promise; there is no
check of any kind on `text`. -/
def moduleSendAlert (text : String) : ModuleSendResult :=
  { rejected := false, dispatchedText := some text }

/-- `MeshService.onStartCommand`: a SEND_ALERT intent triggers `sendAlert`
with the carried text, falling back to "Emergency alert" when the extra is
absent. -/
def onStartCommand (s : MeshState) (action : Option String) (textExtra : Option String)
    (freshId : String) (now : Int) : List MeshAction :=
  if action = some "SEND_ALERT" then
    sendAlert s (textExtra.getD "Emergency alert") freshId now
  else []

/-! ## Predicates and derived statements used by the claims -/

def isStatusAct : MeshAction → Bool
  | MeshAction.status _ => true
  | _ => false

def isAlertAct : MeshAction → Bool
  | MeshAction.alertReceived _ => true
  | _ => false

def sendTargets (acts : List MeshAction) : List String :=
  acts.filterMap (fun a => match a with
    | MeshAction.sendPayload e _ => some e
    | _ => none)

def sentBytes (acts : List MeshAction) : List String :=
  acts.filterMap (fun a => match a with
    | MeshAction.sendPayload _ b => some b
    | _ => none)

/-- Characters that survive the hand-rolled codec unchanged: the comma (the
decoder splits the whole payload on every comma), the double quote and the
backslash (the quote-trim and unescape steps) are the only characters of `id`
and `text` the round trip can mangle. -/
def goodWire (s : String) : Prop := ∀ c ∈ s.data, c ≠ ',' ∧ c ≠ '"' ∧ c ≠ '\\'

/-- No ISO control characters (code points below 32 or in 127..159). -/
def noControlChars (s : String) : Prop :=
  ∀ c ∈ s.data, 32 ≤ c.toNat ∧ ¬(127 ≤ c.toNat ∧ c.toNat ≤ 159)

instance (s : String) : Decidable (goodWire s) := by
  unfold goodWire; infer_instance

instance (s : String) : Decidable (noControlChars s) := by
  unfold noControlChars; infer_instance

/-- The PeerTable invariant: no lost-map key is currently connected. -/
def PeerDisjoint (s : MeshState) : Prop :=
  ∀ p ∈ s.lostEndpoints, p.1 ∉ s.connectedEndpoints

/-- Conclusion of the duplicate-suppression claim: over two runs of the
inbound handler on the same bytes and sender, exactly one AlertReceived, at
most one forwarding broadcast (each broadcast call emits exactly one status
event), and the second run changes nothing and emits nothing. -/
def dupSuppression (s : MeshState) (json sender : String) : Prop :=
  ((handleIncoming s json sender).2
      ++ (handleIncoming (handleIncoming s json sender).1 json sender).2).countP isAlertAct = 1
  ∧ ((handleIncoming s json sender).2
      ++ (handleIncoming (handleIncoming s json sender).1 json sender).2).countP isStatusAct ≤ 1
  ∧ handleIncoming (handleIncoming s json sender).1 json sender
      = ((handleIncoming s json sender).1, [])

/-- Conclusion of the TTL-discipline claim, for an inbound payload decoding to
`msg` and an origination with text `text`: the inbound handler invokes its
forwarding broadcast (witnessed by its single status event) iff `ttl > 1`;
every forwarded copy carries `ttl - 1 ≥ 1`; `ttl = 1` is emitted locally and
not forwarded; every originated payload carries ttl 8. -/
def ttlDiscipline (s : MeshState) (json sender text fid : String) (now : Int)
    (msg : AlertMessage) : Prop :=
  ((handleIncoming s json sender).2.countP isStatusAct = 1 ↔ msg.ttl > 1)
  ∧ sentBytes (handleIncoming s json sender).2
      = (if msg.ttl > 1
         then (s.connectedEndpoints.filter (fun x => x != sender)).map
                (fun _ => serialize { msg with ttl := msg.ttl - 1 })
         else [])
  ∧ (msg.ttl > 1 → 1 ≤ msg.ttl - 1)
  ∧ (msg.ttl = 1 → handleIncoming s json sender
      = ({ s with seenAlertIds := s.seenAlertIds ++ [msg.id] },
         [MeshAction.alertReceived msg]))
  ∧ sentBytes (sendAlert s text fid now)
      = s.connectedEndpoints.map (fun _ => serialize (AlertMessage.mk fid text now 8))

/-- Conclusion of the discovery stop/start-protocol claim. The second
conjunct is engine-global: over every input the engine can process (all its
callbacks, timers and host calls — not just `startDiscovery` itself), a
transport start-discovery call is only ever emitted from a state whose
`isStoppingDiscovery` flag is clear. -/
def discoveryProtocol : Prop :=
  (∀ s : MeshState, s.isStoppingDiscovery = true →
    startDiscovery s
      = ((if s.isDiscovering then s else { s with pendingDiscoveryStart := true }), []))
  ∧ (∀ (i : EngineInput) (s : MeshState),
      MeshAction.transportStartDiscovery ∈ (applyInput i s).2 →
        s.isStoppingDiscovery = false)
  ∧ (∀ s : MeshState,
      MeshAction.transportStartDiscovery ∈ (startDiscovery s).2 →
        s.isStoppingDiscovery = false ∧ s.isDiscovering = false)
  ∧ (∀ s : MeshState, s.isDiscovering = true → s.isStoppingDiscovery = false →
      s.pendingDiscoveryStart = true →
      stopDiscovery s true
        = ({ s with isDiscovering := false, isStoppingDiscovery := false },
           [MeshAction.transportStopDiscovery, MeshAction.scheduleStartDiscovery 1000]))

/-- Conclusion of the origination-echo claim: origination leaves the engine
state (in particular the seen set) unchanged, and the originated payload
arriving back inbound is emitted as an AlertReceived and re-forwarded. -/
def originationEcho (s : MeshState) (text fid sender : String) (now : Int) : Prop :=
  (applyInput (EngineInput.sendAlertCmd text fid now) s).1 = s
  ∧ handleIncoming s (serialize (AlertMessage.mk fid text now 8)) sender
      = ({ s with seenAlertIds := s.seenAlertIds ++ [fid] },
         MeshAction.alertReceived (AlertMessage.mk fid text now 8)
           :: broadcast { s with seenAlertIds := s.seenAlertIds ++ [fid] }
                (serialize (AlertMessage.mk fid text now 7)) (some sender))

/-- Distinct alert ids of unbounded number, for exercising the seen set. -/
def idOfNat (n : Nat) : String := String.mk (List.replicate n 'a')

def seenPayload (n : Nat) : String := serialize (AlertMessage.mk (idOfNat n) "x" 0 8)

/-- A run that feeds `n` distinct well-formed alerts to the inbound handler. -/
def seenChain : Nat → MeshState
  | 0 => initMeshState
  | n + 1 =>
    (applyInput (EngineInput.payloadReceived (seenPayload (n + 1)) "peer") (seenChain n)).1

/-- A small engine state with two connected peers, for concrete checks. -/
def sampleConnected2 : MeshState :=
  { connectedEndpoints := ["B", "C"], seenAlertIds := [], lostEndpoints := [],
    isAdvertising := true, isDiscovering := true,
    isStoppingDiscovery := false, pendingDiscoveryStart := false }

/-! ## Helper lemmas about the codec's string primitives -/

theorem dropWhile_all_false (p : Char → Bool) :
    ∀ xs : List Char, (∀ c ∈ xs, p c = false) → List.dropWhile p xs = xs := by
  intro xs h
  cases xs with
  | nil => rfl
  | cons c cs =>
    have hc : p c = false := h c (by simp)
    simp [List.dropWhile_cons, hc]

theorem dropEnd_all (p : Char → Bool) (xs : List Char)
    (h : ∀ c ∈ xs, p c = false) : dropEnd p xs = xs := by
  unfold dropEnd
  rw [dropWhile_all_false p xs.reverse (fun c hc => h c (List.mem_reverse.mp hc)),
    List.reverse_reverse]

theorem trimPred_all (p : Char → Bool) (xs : List Char)
    (h : ∀ c ∈ xs, p c = false) : trimPred p xs = xs := by
  unfold trimPred
  rw [dropWhile_all_false p xs h, dropEnd_all p xs h]

theorem dropEnd_concat (p : Char → Bool) (xs : List Char) (r : Char)
    (hr : p r = true) : dropEnd p (xs ++ [r]) = dropEnd p xs := by
  unfold dropEnd
  rw [List.reverse_append]
  simp [List.dropWhile_cons, hr]

theorem dropEnd_concat_stop (p : Char → Bool) (xs : List Char) (b : Char)
    (hb : p b = false) : dropEnd p (xs ++ [b]) = xs ++ [b] := by
  unfold dropEnd
  rw [List.reverse_append]
  simp [List.dropWhile_cons, hb]

theorem trimPred_wrapped (p : Char → Bool) (a b : Char) (xs : List Char)
    (ha : p a = false) (hb : p b = false) :
    trimPred p (a :: (xs ++ [b])) = a :: (xs ++ [b]) := by
  unfold trimPred
  rw [List.dropWhile_cons, ha]
  simp only [Bool.false_eq_true, if_false]
  have hsh : a :: (xs ++ [b]) = (a :: xs) ++ [b] := by simp
  rw [hsh, dropEnd_concat_stop p (a :: xs) b hb]

theorem trimPred_wrap2 (p : Char → Bool) (l r a b : Char) (mid : List Char)
    (hl : p l = true) (hr : p r = true) (ha : p a = false) (hb : p b = false) :
    trimPred p (l :: ((a :: (mid ++ [b])) ++ [r])) = a :: (mid ++ [b]) := by
  unfold trimPred
  rw [List.dropWhile_cons, hl, if_pos rfl]
  have hsh : (a :: (mid ++ [b])) ++ [r] = a :: (mid ++ [b] ++ [r]) := by simp
  rw [hsh, List.dropWhile_cons, ha]
  simp only [Bool.false_eq_true, if_false]
  have hsh2 : a :: (mid ++ [b] ++ [r]) = ((a :: mid) ++ [b]) ++ [r] := by simp
  rw [hsh2, dropEnd_concat p _ r hr, dropEnd_concat_stop p (a :: mid) b hb]
  simp

theorem trimQuote_wrap (xs : List Char) (h : ∀ c ∈ xs, ¬c = '"') :
    trimPred isQuote ('"' :: (xs ++ ['"'])) = xs := by
  unfold trimPred
  rw [List.dropWhile_cons]
  simp only [isQuote, beq_self_eq_true, if_true]
  cases xs with
  | nil =>
    simp [List.dropWhile_cons, isQuote, dropEnd]
  | cons x xt =>
    have hx : isQuote x = false := by
      simp [isQuote]
      exact h x (by simp)
    rw [List.cons_append, List.dropWhile_cons, hx]
    simp only [Bool.false_eq_true, if_false]
    have hsh : x :: (xt ++ ['"']) = (x :: xt) ++ ['"'] := by simp
    rw [hsh, dropEnd_concat isQuote (x :: xt) '"' (by simp [isQuote])]
    exact dropEnd_all isQuote (x :: xt) (fun c hc => by simp [isQuote]; exact h c hc)

theorem takeWhile_append_all (p : Char → Bool) :
    ∀ (k : List Char) (x : Char) (v : List Char), (∀ c ∈ k, p c = true) → p x = false →
    List.takeWhile p (k ++ x :: v) = k := by
  intro k
  induction k with
  | nil =>
    intro x v _ hx
    simp [List.takeWhile_cons, hx]
  | cons c ct ih =>
    intro x v hk hx
    have hc : p c = true := hk c (by simp)
    simp only [List.cons_append, List.takeWhile_cons, hc, if_true, List.cons.injEq, true_and]
    exact ih x v (fun d hd => hk d (by simp [hd])) hx

theorem dropWhile_append_all (p : Char → Bool) :
    ∀ (k : List Char) (x : Char) (v : List Char), (∀ c ∈ k, p c = true) → p x = false →
    List.dropWhile p (k ++ x :: v) = x :: v := by
  intro k
  induction k with
  | nil =>
    intro x v _ hx
    simp [List.dropWhile_cons, hx]
  | cons c ct ih =>
    intro x v hk hx
    have hc : p c = true := hk c (by simp)
    simp only [List.cons_append, List.dropWhile_cons, hc, if_true]
    exact ih x v (fun d hd => hk d (by simp [hd])) hx

theorem splitOnChar_sepFree (sep : Char) :
    ∀ xs : List Char, (∀ c ∈ xs, ¬c = sep) → splitOnChar sep xs = [xs] := by
  intro xs h
  induction xs with
  | nil => rfl
  | cons c cs ih =>
    rw [splitOnChar, if_neg (h c (by simp)), ih (fun x hx => h x (by simp [hx]))]

theorem splitOnChar_append (sep : Char) (ys : List Char) :
    ∀ xs : List Char, (∀ c ∈ xs, ¬c = sep) →
    splitOnChar sep (xs ++ sep :: ys) = xs :: splitOnChar sep ys := by
  intro xs h
  induction xs with
  | nil =>
    rw [List.nil_append, splitOnChar, if_pos rfl]
  | cons c cs ih =>
    rw [List.cons_append, splitOnChar, if_neg (h c (by simp)),
      ih (fun x hx => h x (by simp [hx]))]

theorem splitLimit2_eq (sep : Char) (k v : List Char) (hk : ∀ c ∈ k, ¬c = sep) :
    splitLimit2 sep (k ++ sep :: v) = [k, v] := by
  have h1 : ∀ c ∈ k, (!(c == sep)) = true := fun c hc => by simp [hk c hc]
  have h2 : (!(sep == sep)) = false := by simp
  unfold splitLimit2
  rw [dropWhile_append_all _ k sep v h1 h2, takeWhile_append_all _ k sep v h1 h2]

theorem escapeQuote_id : ∀ xs : List Char, (∀ c ∈ xs, ¬c = '"') → escapeQuote xs = xs
  | [], _ => rfl
  | c :: rest, h => by
    rw [escapeQuote, if_neg (h c (by simp)),
      escapeQuote_id rest (fun x hx => h x (by simp [hx]))]

theorem unescapeQuote_id : ∀ xs : List Char, (∀ c ∈ xs, ¬c = '\\') → unescapeQuote xs = xs
  | [], _ => rfl
  | [_], _ => rfl
  | c :: d :: rest, h => by
    have hc : ¬(c = '\\' ∧ d = '"') := fun hcd => h c (by simp) hcd.1
    rw [unescapeQuote, if_neg hc,
      unescapeQuote_id (d :: rest) (fun x hx => h x (by simp [hx]))]

/-! ## Decimal printing and parsing round trip -/

theorem digitChar_range (d : Nat) (h : d < 10) :
    48 ≤ (digitChar d).toNat ∧ (digitChar d).toNat ≤ 57 := by
  interval_cases d <;> decide

theorem digitVal_digitChar (d : Nat) (h : d < 10) : digitVal (digitChar d) = some d := by
  interval_cases d <;> decide

theorem natDigitsAux_digits :
    ∀ (fuel n : Nat), n < fuel → ∀ c ∈ natDigitsAux fuel n,
      48 ≤ c.toNat ∧ c.toNat ≤ 57 := by
  intro fuel
  induction fuel with
  | zero => intro n h; omega
  | succ f ih =>
    intro n hn c hc
    rw [natDigitsAux] at hc
    by_cases h10 : n < 10
    · rw [if_pos h10] at hc
      simp only [List.mem_singleton] at hc
      subst hc
      exact digitChar_range n h10
    · rw [if_neg h10] at hc
      rcases List.mem_append.mp hc with hc | hc
      · have hlt : n / 10 < f := by
          have h1 : n / 10 < n := Nat.div_lt_self (by omega) (by omega)
          omega
        exact ih (n / 10) hlt c hc
      · simp only [List.mem_singleton] at hc
        subst hc
        exact digitChar_range (n % 10) (Nat.mod_lt n (by omega))

theorem natDigitsAux_ne_nil (fuel n : Nat) (h : n < fuel) : natDigitsAux fuel n ≠ [] := by
  cases fuel with
  | zero => omega
  | succ f =>
    rw [natDigitsAux]
    by_cases h10 : n < 10
    · simp [h10]
    · simp [h10]

theorem parseDigitsAux_append (ys : List Char) :
    ∀ (xs : List Char) (acc : Nat),
      parseDigitsAux acc (xs ++ ys)
        = match parseDigitsAux acc xs with
          | some m => parseDigitsAux m ys
          | none => none := by
  intro xs
  induction xs with
  | nil => intro acc; simp [parseDigitsAux]
  | cons c cs ih =>
    intro acc
    simp only [List.cons_append, parseDigitsAux]
    cases digitVal c with
    | none => rfl
    | some d => exact ih _

theorem parseDigitsAux_natDigitsAux :
    ∀ (fuel n acc : Nat), n < fuel →
      parseDigitsAux acc (natDigitsAux fuel n)
        = some (acc * 10 ^ (natDigitsAux fuel n).length + n) := by
  intro fuel
  induction fuel with
  | zero => intro n acc h; omega
  | succ f ih =>
    intro n acc hn
    rw [natDigitsAux]
    by_cases h10 : n < 10
    · rw [if_pos h10]
      simp [parseDigitsAux, digitVal_digitChar n h10]
    · rw [if_neg h10]
      have hlt : n / 10 < f := by
        have h1 : n / 10 < n := Nat.div_lt_self (by omega) (by omega)
        omega
      rw [parseDigitsAux_append, ih (n / 10) acc hlt]
      simp only [parseDigitsAux, digitVal_digitChar (n % 10) (Nat.mod_lt n (by omega))]
      rw [List.length_append]
      congr 1
      have key : ∀ A : Nat, (A + n / 10) * 10 + n % 10 = A * 10 + n := by
        intro A
        omega
      calc (acc * 10 ^ (natDigitsAux f (n / 10)).length + n / 10) * 10 + n % 10
          = acc * 10 ^ (natDigitsAux f (n / 10)).length * 10 + n := key _
        _ = acc * 10 ^ ((natDigitsAux f (n / 10)).length + 1) + n := by
            rw [pow_succ, Nat.mul_assoc]

theorem parseDigits_natDigits (n : Nat) : parseDigits (natDigits n) = some n := by
  unfold parseDigits natDigits
  rw [if_neg (by simp [List.isEmpty_iff, natDigitsAux_ne_nil (n + 1) n (by omega)])]
  rw [parseDigitsAux_natDigitsAux (n + 1) n 0 (by omega)]
  simp

theorem natDigits_digits (n : Nat) :
    ∀ c ∈ natDigits n, 48 ≤ c.toNat ∧ c.toNat ≤ 57 :=
  natDigitsAux_digits (n + 1) n (by omega)

theorem kToLong_natDigits (n : Nat) : kToLong (natDigits n) = some (n : Int) := by
  obtain ⟨c, rest, hc⟩ : ∃ c rest, natDigits n = c :: rest := by
    cases h : natDigits n with
    | nil => exact absurd h (by unfold natDigits; exact natDigitsAux_ne_nil (n + 1) n (by omega))
    | cons c rest => exact ⟨c, rest, rfl⟩
  have hdig : 48 ≤ c.toNat ∧ c.toNat ≤ 57 :=
    natDigits_digits n c (by rw [hc]; simp)
  have hm : ¬c = '-' := fun he => by rw [he] at hdig; revert hdig; decide
  have hp : ¬c = '+' := fun he => by rw [he] at hdig; revert hdig; decide
  rw [hc, kToLong, if_neg hm, if_neg hp, ← hc, parseDigits_natDigits]
  rfl

theorem kToLong_intToDecimal (i : Int) : kToLong (intToDecimal i) = some i := by
  unfold intToDecimal
  by_cases hi : i < 0
  · rw [if_pos hi, kToLong, if_pos rfl, parseDigits_natDigits]
    show some (-(i.natAbs : Int)) = some i
    simp only [Option.some.injEq]
    omega
  · rw [if_neg hi, kToLong_natDigits]
    simp only [Option.some.injEq]
    omega

theorem natDigits_concat (n : Nat) :
    ∃ ds d, natDigits n = ds ++ [d] ∧ 48 ≤ d.toNat ∧ d.toNat ≤ 57 := by
  unfold natDigits
  rw [natDigitsAux]
  by_cases h10 : n < 10
  · rw [if_pos h10]
    exact ⟨[], digitChar n, rfl, digitChar_range n h10⟩
  · rw [if_neg h10]
    exact ⟨natDigitsAux n (n / 10), digitChar (n % 10), rfl,
      digitChar_range (n % 10) (Nat.mod_lt n (by omega))⟩

theorem intToDecimal_concat (i : Int) :
    ∃ ds d, intToDecimal i = ds ++ [d] ∧ 48 ≤ d.toNat ∧ d.toNat ≤ 57 := by
  unfold intToDecimal
  by_cases hi : i < 0
  · obtain ⟨ds, d, h, h4⟩ := natDigits_concat i.natAbs
    rw [if_pos hi, h]
    exact ⟨'-' :: ds, d, by simp, h4⟩
  · rw [if_neg hi]
    exact natDigits_concat i.toNat

theorem intToDecimal_chars (i : Int) :
    ∀ c ∈ intToDecimal i, c = '-' ∨ (48 ≤ c.toNat ∧ c.toNat ≤ 57) := by
  unfold intToDecimal
  by_cases hi : i < 0
  · rw [if_pos hi]
    intro c hc
    rcases List.mem_cons.mp hc with h | h
    · exact Or.inl h
    · exact Or.inr (natDigits_digits _ c h)
  · rw [if_neg hi]
    intro c hc
    exact Or.inr (natDigits_digits _ c hc)

/-! ## The codec round trip -/

theorem digitish_facts (c : Char) (h : c = '-' ∨ (48 ≤ c.toNat ∧ c.toNat ≤ 57)) :
    ¬c = ',' ∧ isWs c = false := by
  rcases h with h | ⟨h1, h2⟩
  · subst h; decide
  · refine ⟨fun he => ?_, ?_⟩
    · rw [he] at h1; exact absurd h1 (by decide)
    · have e1 : ¬c = ' ' := fun he => by rw [he] at h1; exact absurd h1 (by decide)
      have e2 : ¬c = '\t' := fun he => by rw [he] at h1; exact absurd h1 (by decide)
      have e3 : ¬c = '\n' := fun he => by rw [he] at h1; exact absurd h1 (by decide)
      have e4 : ¬c = '\r' := fun he => by rw [he] at h1; exact absurd h1 (by decide)
      simp [isWs, e1, e2, e3, e4]

theorem digit_not_brace (c : Char) (_h1 : 48 ≤ c.toNat) (h2 : c.toNat ≤ 57) :
    isBrace c = false := by
  have e1 : ¬c = '\x7b' := fun he => by rw [he] at h2; exact absurd h2 (by decide)
  have e2 : ¬c = '\x7d' := fun he => by rw [he] at h2; exact absurd h2 (by decide)
  simp [isBrace, e1, e2]

/-- Trimming the braces and splitting the body on commas recovers the four
comma-free field pieces of the wire form. -/
theorem codec_split (p1 p2 p3 p4 tds : List Char) (tdl : Char)
    (h1 : ∀ c ∈ p1, ¬c = ',') (h2 : ∀ c ∈ p2, ¬c = ',')
    (h3 : ∀ c ∈ p3, ¬c = ',') (h4 : ∀ c ∈ p4, ¬c = ',')
    (hp1 : ∃ t, p1 = '"' :: t) (hp4 : p4 = tds ++ [tdl]) (hb : isBrace tdl = false) :
    splitOnChar ',' (trimPred isBrace
      ('\x7b' :: ((p1 ++ ',' :: (p2 ++ ',' :: (p3 ++ ',' :: p4))) ++ ['\x7d'])))
      = [p1, p2, p3, p4] := by
  obtain ⟨t1, rfl⟩ := hp1
  subst hp4
  have hshape : ('"' :: t1) ++ ',' :: (p2 ++ ',' :: (p3 ++ ',' :: (tds ++ [tdl])))
      = '"' :: ((t1 ++ ',' :: (p2 ++ ',' :: (p3 ++ ',' :: tds))) ++ [tdl]) := by
    simp [List.append_assoc]
  rw [hshape,
    trimPred_wrap2 isBrace '\x7b' '\x7d' '"' tdl _ (by decide) (by decide) (by decide) hb,
    ← hshape]
  rw [splitOnChar_append ',' _ _ h1, splitOnChar_append ',' _ _ h2,
    splitOnChar_append ',' _ _ h3, splitOnChar_sepFree ',' _ h4]

theorem buildMap_cons (p : List Char) (ps : List (List Char))
    (m : List (List Char × List Char)) (k v : List Char)
    (hs : splitLimit2 ':' p = [k, v]) :
    buildMap (p :: ps) m
      = buildMap ps (mapPut (trimPred isQuote (trimPred isWs k)) (trimPred isWs v) m) := by
  rw [buildMap, hs]

/-- Round trip of the hand-rolled codec for alerts whose `id` and `text`
avoid the comma, the double quote and the backslash. -/
theorem deserialize_serialize (a : AlertMessage)
    (hid : goodWire a.id) (htext : goodWire a.text) :
    deserialize (serialize a) = some a := by
  obtain ⟨⟨I⟩, ⟨T⟩, ts, ttl⟩ := a
  have hI : ∀ c ∈ I, c ≠ ',' ∧ c ≠ '"' ∧ c ≠ '\\' := hid
  have hT : ∀ c ∈ T, c ≠ ',' ∧ c ≠ '"' ∧ c ≠ '\\' := htext
  have hTesc : escapeQuote T = T := escapeQuote_id T (fun c hc => (hT c hc).2.1)
  have hTSf : ∀ c ∈ intToDecimal ts, ¬c = ',' ∧ isWs c = false :=
    fun c hc => digitish_facts c (intToDecimal_chars ts c hc)
  have hTTf : ∀ c ∈ intToDecimal ttl, ¬c = ',' ∧ isWs c = false :=
    fun c hc => digitish_facts c (intToDecimal_chars ttl c hc)
  obtain ⟨tds, tdl, hTT, h48, h57⟩ := intToDecimal_concat ttl
  -- the four comma-separated pieces of the wire form
  have hser : serializeChars (AlertMessage.mk ⟨I⟩ ⟨T⟩ ts ttl)
      = '\x7b' :: ((("\"id\":\"".data ++ I ++ ['"'])
        ++ ',' :: (("\"text\":\"".data ++ T ++ ['"'])
        ++ ',' :: (("\"timestamp\":".data ++ intToDecimal ts)
        ++ ',' :: ("\"ttl\":".data ++ intToDecimal ttl)))) ++ ['\x7d']) := by
    simp [serializeChars, hTesc, List.append_assoc]
  have hsplit := codec_split
    ("\"id\":\"".data ++ I ++ ['"']) ("\"text\":\"".data ++ T ++ ['"'])
    ("\"timestamp\":".data ++ intToDecimal ts) ("\"ttl\":".data ++ intToDecimal ttl)
    ("\"ttl\":".data ++ tds) tdl
    (by
      have hlit : ∀ c ∈ ("\"id\":\"" : String).data, ¬c = ',' := by decide
      have hq : ∀ c ∈ ['"'], ¬c = ',' := by decide
      intro c hc
      rcases List.mem_append.mp hc with hc | hc
      · rcases List.mem_append.mp hc with hc | hc
        · exact hlit c hc
        · exact (hI c hc).1
      · exact hq c hc)
    (by
      have hlit : ∀ c ∈ ("\"text\":\"" : String).data, ¬c = ',' := by decide
      have hq : ∀ c ∈ ['"'], ¬c = ',' := by decide
      intro c hc
      rcases List.mem_append.mp hc with hc | hc
      · rcases List.mem_append.mp hc with hc | hc
        · exact hlit c hc
        · exact (hT c hc).1
      · exact hq c hc)
    (by
      have hlit : ∀ c ∈ ("\"timestamp\":" : String).data, ¬c = ',' := by decide
      intro c hc
      rcases List.mem_append.mp hc with hc | hc
      · exact hlit c hc
      · exact (hTSf c hc).1)
    (by
      have hlit : ∀ c ∈ ("\"ttl\":" : String).data, ¬c = ',' := by decide
      intro c hc
      rcases List.mem_append.mp hc with hc | hc
      · exact hlit c hc
      · exact (hTTf c hc).1)
    ⟨"id\":\"".data ++ I ++ ['"'], by
      rw [show ("\"id\":\"" : String).data = '"' :: ("id\":\"" : String).data from rfl]
      simp⟩
    (by rw [hTT, List.append_assoc])
    (digit_not_brace tdl h48 h57)
  -- the four key/value splits at the first colon
  have e1 : "\"id\":\"".data ++ I ++ ['"']
      = "\"id\"".data ++ ':' :: ('"' :: (I ++ ['"'])) := by
    rw [show ("\"id\":\"" : String).data = "\"id\"".data ++ ':' :: ['"'] from rfl]
    simp
  have e2 : "\"text\":\"".data ++ T ++ ['"']
      = "\"text\"".data ++ ':' :: ('"' :: (T ++ ['"'])) := by
    rw [show ("\"text\":\"" : String).data = "\"text\"".data ++ ':' :: ['"'] from rfl]
    simp
  have e3 : "\"timestamp\":".data ++ intToDecimal ts
      = "\"timestamp\"".data ++ ':' :: intToDecimal ts := by
    rw [show ("\"timestamp\":" : String).data = "\"timestamp\"".data ++ [':'] from rfl]
    simp
  have e4 : "\"ttl\":".data ++ intToDecimal ttl
      = "\"ttl\"".data ++ ':' :: intToDecimal ttl := by
    rw [show ("\"ttl\":" : String).data = "\"ttl\"".data ++ [':'] from rfl]
    simp
  have s1 : splitLimit2 ':' ("\"id\":\"".data ++ I ++ ['"'])
      = ["\"id\"".data, '"' :: (I ++ ['"'])] := by
    rw [e1]; exact splitLimit2_eq ':' _ _ (by decide)
  have s2 : splitLimit2 ':' ("\"text\":\"".data ++ T ++ ['"'])
      = ["\"text\"".data, '"' :: (T ++ ['"'])] := by
    rw [e2]; exact splitLimit2_eq ':' _ _ (by decide)
  have s3 : splitLimit2 ':' ("\"timestamp\":".data ++ intToDecimal ts)
      = ["\"timestamp\"".data, intToDecimal ts] := by
    rw [e3]; exact splitLimit2_eq ':' _ _ (by decide)
  have s4 : splitLimit2 ':' ("\"ttl\":".data ++ intToDecimal ttl)
      = ["\"ttl\"".data, intToDecimal ttl] := by
    rw [e4]; exact splitLimit2_eq ':' _ _ (by decide)
  -- key and value trims
  have k1 : trimPred isQuote (trimPred isWs "\"id\"".data) = "id".data := by decide
  have k2 : trimPred isQuote (trimPred isWs "\"text\"".data) = "text".data := by decide
  have k3 : trimPred isQuote (trimPred isWs "\"timestamp\"".data) = "timestamp".data := by
    decide
  have k4 : trimPred isQuote (trimPred isWs "\"ttl\"".data) = "ttl".data := by decide
  have w1 : trimPred isWs ('"' :: (I ++ ['"'])) = '"' :: (I ++ ['"']) :=
    trimPred_wrapped isWs '"' '"' I (by decide) (by decide)
  have w2 : trimPred isWs ('"' :: (T ++ ['"'])) = '"' :: (T ++ ['"']) :=
    trimPred_wrapped isWs '"' '"' T (by decide) (by decide)
  have w3 : trimPred isWs (intToDecimal ts) = intToDecimal ts :=
    trimPred_all isWs _ (fun c hc => (hTSf c hc).2)
  have w4 : trimPred isWs (intToDecimal ttl) = intToDecimal ttl :=
    trimPred_all isWs _ (fun c hc => (hTTf c hc).2)
  -- the built map
  have hmap : buildMap (splitOnChar ','
      (trimPred isBrace (serializeChars (AlertMessage.mk ⟨I⟩ ⟨T⟩ ts ttl)))) []
      = some [("ttl".data, intToDecimal ttl), ("timestamp".data, intToDecimal ts),
              ("text".data, '"' :: (T ++ ['"'])), ("id".data, '"' :: (I ++ ['"']))] := by
    rw [hser, hsplit]
    rw [buildMap_cons _ _ _ _ _ s1, k1, w1]
    rw [buildMap_cons _ _ _ _ _ s2, k2, w2]
    rw [buildMap_cons _ _ _ _ _ s3, k3, w3]
    rw [buildMap_cons _ _ _ _ _ s4, k4, w4]
    rfl
  -- the final field extraction
  have tqI : trimPred isQuote ('"' :: (I ++ ['"'])) = I :=
    trimQuote_wrap I (fun c hc => (hI c hc).2.1)
  have tqT : trimPred isQuote ('"' :: (T ++ ['"'])) = T :=
    trimQuote_wrap T (fun c hc => (hT c hc).2.1)
  have huT : unescapeQuote T = T := unescapeQuote_id T (fun c hc => (hT c hc).2.2)
  show (do
    let m ← buildMap (splitOnChar ','
      (trimPred isBrace (serializeChars (AlertMessage.mk ⟨I⟩ ⟨T⟩ ts ttl)))) []
    let idv ← mapLookup "id".data m
    let textv ← mapLookup "text".data m
    let tsv ← mapLookup "timestamp".data m
    let ttlv ← mapLookup "ttl".data m
    let tsn ← kToLong tsv
    let ttln ← kToLong ttlv
    some (AlertMessage.mk (String.mk (trimPred isQuote idv))
      (String.mk (unescapeQuote (trimPred isQuote textv))) tsn ttln))
    = some (AlertMessage.mk ⟨I⟩ ⟨T⟩ ts ttl)
  rw [hmap]
  show (do
    let idv ← mapLookup "id".data [("ttl".data, intToDecimal ttl),
      ("timestamp".data, intToDecimal ts), ("text".data, '"' :: (T ++ ['"'])),
      ("id".data, '"' :: (I ++ ['"']))]
    let textv ← mapLookup "text".data [("ttl".data, intToDecimal ttl),
      ("timestamp".data, intToDecimal ts), ("text".data, '"' :: (T ++ ['"'])),
      ("id".data, '"' :: (I ++ ['"']))]
    let tsv ← mapLookup "timestamp".data [("ttl".data, intToDecimal ttl),
      ("timestamp".data, intToDecimal ts), ("text".data, '"' :: (T ++ ['"'])),
      ("id".data, '"' :: (I ++ ['"']))]
    let ttlv ← mapLookup "ttl".data [("ttl".data, intToDecimal ttl),
      ("timestamp".data, intToDecimal ts), ("text".data, '"' :: (T ++ ['"'])),
      ("id".data, '"' :: (I ++ ['"']))]
    let tsn ← kToLong tsv
    let ttln ← kToLong ttlv
    some (AlertMessage.mk (String.mk (trimPred isQuote idv))
      (String.mk (unescapeQuote (trimPred isQuote textv))) tsn ttln))
    = some (AlertMessage.mk ⟨I⟩ ⟨T⟩ ts ttl)
  have m1 : mapLookup "id".data [("ttl".data, intToDecimal ttl),
      ("timestamp".data, intToDecimal ts), ("text".data, '"' :: (T ++ ['"'])),
      ("id".data, '"' :: (I ++ ['"']))] = some ('"' :: (I ++ ['"'])) := by
    rw [mapLookup, if_neg (by decide), mapLookup, if_neg (by decide),
      mapLookup, if_neg (by decide), mapLookup, if_pos rfl]
  have m2 : mapLookup "text".data [("ttl".data, intToDecimal ttl),
      ("timestamp".data, intToDecimal ts), ("text".data, '"' :: (T ++ ['"'])),
      ("id".data, '"' :: (I ++ ['"']))] = some ('"' :: (T ++ ['"'])) := by
    rw [mapLookup, if_neg (by decide), mapLookup, if_neg (by decide),
      mapLookup, if_pos rfl]
  have m3 : mapLookup "timestamp".data [("ttl".data, intToDecimal ttl),
      ("timestamp".data, intToDecimal ts), ("text".data, '"' :: (T ++ ['"'])),
      ("id".data, '"' :: (I ++ ['"']))] = some (intToDecimal ts) := by
    rw [mapLookup, if_neg (by decide), mapLookup, if_pos rfl]
  have m4 : mapLookup "ttl".data [("ttl".data, intToDecimal ttl),
      ("timestamp".data, intToDecimal ts), ("text".data, '"' :: (T ++ ['"'])),
      ("id".data, '"' :: (I ++ ['"']))] = some (intToDecimal ttl) := by
    rw [mapLookup, if_pos rfl]
  rw [m1, m2, m3, m4]
  show (do
    let tsn ← kToLong (intToDecimal ts)
    let ttln ← kToLong (intToDecimal ttl)
    some (AlertMessage.mk (String.mk (trimPred isQuote ('"' :: (I ++ ['"']))))
      (String.mk (unescapeQuote (trimPred isQuote ('"' :: (T ++ ['"']))))) tsn ttln))
    = some (AlertMessage.mk ⟨I⟩ ⟨T⟩ ts ttl)
  rw [kToLong_intToDecimal, kToLong_intToDecimal, tqI, tqT, huT]
  rfl

/-! ## Engine lemmas -/

theorem broadcast_eq (s : MeshState) (json : String) (ex : Option String) :
    broadcast s json ex
      = (match ex with
          | some e => s.connectedEndpoints.filter (fun x => x != e)
          | none => s.connectedEndpoints).map
            (fun eid => MeshAction.sendPayload eid json)
        ++ [MeshAction.status ("📊 Status: " ++ toString s.connectedEndpoints.length
              ++ " peers connected")] := by
  cases ex with
  | none =>
    by_cases h : s.connectedEndpoints.isEmpty
    · have h0 : s.connectedEndpoints = [] := by
        cases hc : s.connectedEndpoints
        · rfl
        · rw [hc] at h; exact absurd h (by simp)
      simp [broadcast, h0]
    · simp [broadcast, h]
  | some e =>
    by_cases h : (s.connectedEndpoints.filter (fun x => x != e)).isEmpty
    · have h0 : s.connectedEndpoints.filter (fun x => x != e) = [] := by
        cases hc : s.connectedEndpoints.filter (fun x => x != e)
        · rfl
        · rw [hc] at h; exact absurd h (by simp)
      simp [broadcast, h, h0]
    · simp [broadcast, h]

theorem sendTargets_broadcast (s : MeshState) (json : String) (ex : Option String) :
    sendTargets (broadcast s json ex)
      = match ex with
        | some e => s.connectedEndpoints.filter (fun x => x != e)
        | none => s.connectedEndpoints := by
  rw [broadcast_eq]
  have hmap : ∀ l : List String,
      sendTargets (l.map (fun eid => MeshAction.sendPayload eid json)) = l := by
    intro l
    induction l with
    | nil => rfl
    | cons a l ih => simp only [List.map_cons, sendTargets, List.filterMap_cons] at ih ⊢; rw [ih]
  have hsplit : ∀ (u v : List MeshAction),
      sendTargets (u ++ v) = sendTargets u ++ sendTargets v := by
    intro u v; simp [sendTargets, List.filterMap_append]
  rw [hsplit, hmap]
  simp [sendTargets]

theorem sentBytes_broadcast (s : MeshState) (json : String) (ex : Option String) :
    sentBytes (broadcast s json ex)
      = (match ex with
          | some e => s.connectedEndpoints.filter (fun x => x != e)
          | none => s.connectedEndpoints).map (fun _ => json) := by
  rw [broadcast_eq]
  have hmap : ∀ l : List String,
      sentBytes (l.map (fun eid => MeshAction.sendPayload eid json))
        = l.map (fun _ => json) := by
    intro l
    induction l with
    | nil => rfl
    | cons a l ih =>
      simp only [List.map_cons, sentBytes, List.filterMap_cons] at ih ⊢
      rw [ih]
  have hsplit : ∀ (u v : List MeshAction),
      sentBytes (u ++ v) = sentBytes u ++ sentBytes v := by
    intro u v; simp [sentBytes, List.filterMap_append]
  rw [hsplit, hmap]
  simp [sentBytes]

theorem countP_alert_broadcast (s : MeshState) (json : String) (ex : Option String) :
    (broadcast s json ex).countP isAlertAct = 0 := by
  rw [broadcast_eq]
  rw [List.countP_append]
  have hmap : ∀ l : List String,
      (l.map (fun eid => MeshAction.sendPayload eid json)).countP isAlertAct = 0 := by
    intro l
    induction l with
    | nil => rfl
    | cons a l ih => simp [List.countP_cons, isAlertAct, ih]
  cases ex <;> simp [hmap, List.countP_cons, isAlertAct]

theorem countP_status_broadcast (s : MeshState) (json : String) (ex : Option String) :
    (broadcast s json ex).countP isStatusAct = 1 := by
  rw [broadcast_eq]
  rw [List.countP_append]
  have hmap : ∀ l : List String,
      (l.map (fun eid => MeshAction.sendPayload eid json)).countP isStatusAct = 0 := by
    intro l
    induction l with
    | nil => rfl
    | cons a l ih => simp [List.countP_cons, isStatusAct, ih]
  cases ex <;> simp [hmap, List.countP_cons, isStatusAct]

theorem contains_eq_false_of_not_mem (x : String) (l : List String) (h : x ∉ l) :
    l.contains x = false := by
  by_contra hb
  rw [Bool.not_eq_false] at hb
  exact h (List.elem_iff.mp hb)

theorem handleIncoming_dup (s : MeshState) (json sender : String) (msg : AlertMessage)
    (hdes : deserialize json = some msg) (hdup : msg.id ∈ s.seenAlertIds) :
    handleIncoming s json sender = (s, []) := by
  unfold handleIncoming
  rw [hdes]
  simp [hdup]

theorem handleIncoming_fresh_fwd (s : MeshState) (json sender : String)
    (msg : AlertMessage) (hdes : deserialize json = some msg)
    (hfresh : msg.id ∉ s.seenAlertIds) (httl : msg.ttl > 1) :
    handleIncoming s json sender
      = ({ s with seenAlertIds := s.seenAlertIds ++ [msg.id] },
         MeshAction.alertReceived msg
           :: broadcast { s with seenAlertIds := s.seenAlertIds ++ [msg.id] }
                (serialize { msg with ttl := msg.ttl - 1 }) (some sender)) := by
  unfold handleIncoming
  rw [hdes]
  simp [hfresh, httl]

theorem handleIncoming_fresh_nofwd (s : MeshState) (json sender : String)
    (msg : AlertMessage) (hdes : deserialize json = some msg)
    (hfresh : msg.id ∉ s.seenAlertIds) (httl : ¬msg.ttl > 1) :
    handleIncoming s json sender
      = ({ s with seenAlertIds := s.seenAlertIds ++ [msg.id] },
         [MeshAction.alertReceived msg]) := by
  unfold handleIncoming
  rw [hdes]
  simp [hfresh, httl]

theorem mem_addToSet (x y : String) (l : List String) :
    x ∈ addToSet y l ↔ x ∈ l ∨ x = y := by
  unfold addToSet
  by_cases h : y ∈ l
  · rw [if_pos h]
    constructor
    · exact Or.inl
    · rintro (hx | rfl)
      · exact hx
      · exact h
  · rw [if_neg h]
    simp

theorem handleIncoming_peers (s : MeshState) (json sender : String) :
    (handleIncoming s json sender).1.connectedEndpoints = s.connectedEndpoints
    ∧ (handleIncoming s json sender).1.lostEndpoints = s.lostEndpoints := by
  unfold handleIncoming
  cases deserialize json with
  | none => exact ⟨rfl, rfl⟩
  | some msg =>
    by_cases hm : msg.id ∈ s.seenAlertIds
    · simp [hm]
    · by_cases ht : msg.ttl > 1 <;> simp [hm, ht]

theorem peerDisjoint_step (i : EngineInput) (s : MeshState) (h : PeerDisjoint s) :
    PeerDisjoint (applyInput i s).1 := by
  cases i with
  | connectionResult e ok now =>
    simp only [applyInput, onConnectionResult]
    split_ifs with hok hcon
    · intro p hp
      simp only [mapRemoveL, List.mem_filter] at hp
      obtain ⟨hp, hpe⟩ := hp
      intro hc
      rcases (mem_addToSet _ _ _).mp hc with hmem | heq
      · exact h p hp hmem
      · rw [heq] at hpe; simp at hpe
    · exact h
    · intro p hp
      simp only [mapPutL, List.mem_cons, List.mem_filter] at hp
      rcases hp with rfl | ⟨hp, _⟩
      · intro hc
        exact hcon (List.elem_iff.mpr hc)
      · exact h p hp
  | disconnected e now =>
    simp only [applyInput, onDisconnected]
    have key : PeerDisjoint
        { s with connectedEndpoints := s.connectedEndpoints.filter (fun x => x != e),
                 lostEndpoints := mapPutL e now s.lostEndpoints } := by
      intro p hp
      simp only [mapPutL, List.mem_cons, List.mem_filter] at hp
      intro hc
      simp only [List.mem_filter] at hc
      obtain ⟨hc1, hc2⟩ := hc
      rcases hp with rfl | ⟨hp, _⟩
      · simp at hc2
      · exact h p hp hc1
    split_ifs <;> first | exact key | exact h
  | reconnectProbeFired e now =>
    simp only [applyInput, reconnectProbe]
    repeat' split
    any_goals exact h
    intro p hp
    simp only [mapRemoveL, List.mem_filter] at hp
    exact h p hp.1
  | endpointFound e =>
    simp only [applyInput, onEndpointFound]
    split_ifs <;>
      (intro p hp
       simp only [mapRemoveL, List.mem_filter] at hp
       exact h p hp.1)
  | connRetryFailed e now =>
    simp only [applyInput, onConnRetryFailed]
    split_ifs with hcon
    · exact h
    · intro p hp
      simp only [mapPutL, List.mem_cons, List.mem_filter] at hp
      rcases hp with rfl | ⟨hp, _⟩
      · intro hc
        exact hcon (List.elem_iff.mpr hc)
      · exact h p hp
  | endpointLost e now =>
    simp only [applyInput, onEndpointLost]
    intro p hp
    simp only [mapPutL, List.mem_cons, List.mem_filter] at hp
    intro hc
    simp only [List.mem_filter] at hc
    obtain ⟨hc1, hc2⟩ := hc
    rcases hp with rfl | ⟨hp, _⟩
    · simp at hc2
    · exact h p hp hc1
  | maintenanceTick now =>
    simp only [applyInput, discoveryMaintenance]
    split_ifs <;>
      (intro p hp
       simp only [List.mem_filter] at hp
       exact h p hp.1)
  | statusCheckTick => exact h
  | payloadReceived json sender =>
    simp only [applyInput]
    have hcl := handleIncoming_peers s json sender
    intro p hp hc
    rw [hcl.2] at hp
    rw [hcl.1] at hc
    exact h p hp hc
  | sendAlertCmd text fid now => exact h
  | startDiscoveryCall =>
    simp only [applyInput, startDiscovery]
    split_ifs <;> exact h
  | stopDiscoveryCall ok =>
    simp only [applyInput, stopDiscovery]
    split_ifs <;> exact h
  | discoveryStartSucceeded => exact h
  | discoveryStartFailed already =>
    simp only [applyInput, onDiscoveryStartFailure]
    split_ifs <;> exact h
  | advertisingStartSucceeded => exact h
  | advertisingStartFailed => exact h
  | startAdvertisingCall =>
    simp only [applyInput, startAdvertising]
    split_ifs <;> exact h
  | serviceDestroyed =>
    intro p hp
    simp only [applyInput, onDestroy] at hp
    exact absurd hp (List.not_mem_nil p)

theorem seen_isPrefix_step (i : EngineInput) (s : MeshState) :
    s.seenAlertIds <+: (applyInput i s).1.seenAlertIds := by
  cases i with
  | connectionResult e ok now =>
    simp only [applyInput, onConnectionResult]
    split_ifs <;> exact List.prefix_refl _
  | disconnected e now =>
    simp only [applyInput, onDisconnected]
    split_ifs <;> exact List.prefix_refl _
  | reconnectProbeFired e now =>
    simp only [applyInput, reconnectProbe]
    repeat' split
    all_goals exact List.prefix_refl _
  | endpointFound e =>
    simp only [applyInput, onEndpointFound]
    split_ifs <;> exact List.prefix_refl _
  | connRetryFailed e now =>
    simp only [applyInput, onConnRetryFailed]
    split_ifs <;> exact List.prefix_refl _
  | endpointLost e now => exact List.prefix_refl _
  | maintenanceTick now =>
    simp only [applyInput, discoveryMaintenance]
    split_ifs <;> exact List.prefix_refl _
  | statusCheckTick => exact List.prefix_refl _
  | payloadReceived json sender =>
    simp only [applyInput, handleIncoming]
    repeat' split
    all_goals first
      | exact List.prefix_refl _
      | exact List.prefix_append _ _
  | sendAlertCmd text fid now => exact List.prefix_refl _
  | startDiscoveryCall =>
    simp only [applyInput, startDiscovery]
    split_ifs <;> exact List.prefix_refl _
  | stopDiscoveryCall ok =>
    simp only [applyInput, stopDiscovery]
    split_ifs <;> exact List.prefix_refl _
  | discoveryStartSucceeded => exact List.prefix_refl _
  | discoveryStartFailed already =>
    simp only [applyInput, onDiscoveryStartFailure]
    split_ifs <;> exact List.prefix_refl _
  | advertisingStartSucceeded => exact List.prefix_refl _
  | advertisingStartFailed => exact List.prefix_refl _
  | startAdvertisingCall =>
    simp only [applyInput, startAdvertising]
    split_ifs <;> exact List.prefix_refl _
  | serviceDestroyed => exact List.prefix_refl _

theorem statusString_split (n : Nat) :
    "📊 Status: " ++ toString n ++ " peers connected"
      = "📊 " ++ ("Status: " ++ toString n ++ " peers connected") := by
  have h1 : ("📊 Status: " : String) = "📊 " ++ "Status: " := rfl
  rw [h1, String.append_assoc "📊 " "Status: " (toString n),
    String.append_assoc "📊 " ("Status: " ++ toString n) " peers connected"]

/-! ## The claims -/

/-- Claim C1 (counterexample): the alert with text `a,b` has no control
characters and ttl 8 ≥ 0, yet the decoder splits its serialization at the
comma inside the text and fails, so `deserialize (serialize a)` is `none`
rather than `some a`. -/
theorem c1_counterexample :
    noControlChars (AlertMessage.mk "i" "a,b" 0 8).text
    ∧ (0 : Int) ≤ (AlertMessage.mk "i" "a,b" 0 8).ttl
    ∧ deserialize (serialize (AlertMessage.mk "i" "a,b" 0 8)) = none :=
  ⟨by decide, by decide, by decide⟩

/-- Claim C1 (amended): the codec round trip `deserialize (serialize a) = some a`
holds for every alert whose `id` and `text` contain no comma, no double quote
and no backslash (and whose ttl is non-negative, as in the original claim). -/
theorem c1_roundtrip (a : AlertMessage) (hid : goodWire a.id) (htext : goodWire a.text)
    (_httl : 0 ≤ a.ttl) : deserialize (serialize a) = some a :=
  deserialize_serialize a hid htext

theorem c1_roundtrip_witness :
    goodWire "550e8400-e29b-41d4-a716-446655440000"
    ∧ goodWire "Emergency alert! Move to higher ground."
    ∧ (0 : Int) ≤ (8 : Int)
    ∧ deserialize (serialize (AlertMessage.mk "550e8400-e29b-41d4-a716-446655440000"
        "Emergency alert! Move to higher ground." 1700000000000 8))
      = some (AlertMessage.mk "550e8400-e29b-41d4-a716-446655440000"
        "Emergency alert! Move to higher ground." 1700000000000 8) :=
  ⟨by decide, by decide, by decide, c1_roundtrip _ (by decide) (by decide) (by decide)⟩

/-- Claim C2: processing the same inbound bytes twice (same sender) on a state
that has not yet seen the alert id emits exactly one AlertReceived and at most
one forwarding broadcast, and the second run changes nothing and emits
nothing, because the seen-set insertion reports a duplicate. -/
theorem c2_dup_suppression (s : MeshState) (json sender : String) (msg : AlertMessage)
    (hdes : deserialize json = some msg) (hfresh : msg.id ∉ s.seenAlertIds) :
    dupSuppression s json sender := by
  unfold dupSuppression
  have hdup : msg.id ∈ s.seenAlertIds ++ [msg.id] := by simp
  by_cases ht : msg.ttl > 1
  · have h1 := handleIncoming_fresh_fwd s json sender msg hdes hfresh ht
    have h2 := handleIncoming_dup { s with seenAlertIds := s.seenAlertIds ++ [msg.id] }
      json sender msg hdes hdup
    refine ⟨?_, ?_, ?_⟩
    · rw [h1]
      dsimp only
      rw [h2]
      simp [List.countP_append, List.countP_cons, isAlertAct, countP_alert_broadcast]
    · rw [h1]
      dsimp only
      rw [h2]
      simp [List.countP_append, List.countP_cons, isStatusAct, countP_status_broadcast]
    · rw [h1]
      dsimp only
      rw [h2]
  · have h1 := handleIncoming_fresh_nofwd s json sender msg hdes hfresh ht
    have h2 := handleIncoming_dup { s with seenAlertIds := s.seenAlertIds ++ [msg.id] }
      json sender msg hdes hdup
    refine ⟨?_, ?_, ?_⟩
    · rw [h1]
      dsimp only
      rw [h2]
      simp [List.countP_append, List.countP_cons, isAlertAct]
    · rw [h1]
      dsimp only
      rw [h2]
      simp [List.countP_append, List.countP_cons, isStatusAct]
    · rw [h1]
      dsimp only
      rw [h2]

theorem c2_witness :
    deserialize (serialize (AlertMessage.mk "id1" "hello" 5 8))
      = some (AlertMessage.mk "id1" "hello" 5 8)
    ∧ (AlertMessage.mk "id1" "hello" 5 8).id ∉ sampleConnected2.seenAlertIds
    ∧ dupSuppression sampleConnected2 (serialize (AlertMessage.mk "id1" "hello" 5 8)) "B" :=
  ⟨by decide, by decide,
   c2_dup_suppression sampleConnected2 (serialize (AlertMessage.mk "id1" "hello" 5 8))
     "B" (AlertMessage.mk "id1" "hello" 5 8) (by decide) (by decide)⟩

/-- Claim C3: TTL discipline. An inbound alert (decoding to `msg`, not yet
seen) is forwarded iff `msg.ttl > 1`, the forwarded copies carry exactly
`msg.ttl - 1 ≥ 1`, an alert with `ttl = 1` is emitted locally and never
forwarded, and every originated payload is serialized with ttl 8; hence no
alert with ttl ≤ 0 is ever serialized for outbound transmission. -/
theorem c3_ttl_discipline (s : MeshState) (json sender text fid : String) (now : Int)
    (msg : AlertMessage) (hdes : deserialize json = some msg)
    (hfresh : msg.id ∉ s.seenAlertIds) :
    ttlDiscipline s json sender text fid now msg := by
  unfold ttlDiscipline
  have hsend : sentBytes (sendAlert s text fid now)
      = s.connectedEndpoints.map (fun _ => serialize (AlertMessage.mk fid text now 8)) := by
    rw [sendAlert, sentBytes_broadcast]
  by_cases ht : msg.ttl > 1
  · have h1 := handleIncoming_fresh_fwd s json sender msg hdes hfresh ht
    refine ⟨?_, ?_, fun _ => by omega, ?_, hsend⟩
    · constructor
      · intro _; exact ht
      · intro _
        rw [h1]
        dsimp only
        simp [List.countP_cons, isStatusAct, countP_status_broadcast]
    · rw [h1, if_pos ht]
      dsimp only
      rw [show sentBytes (MeshAction.alertReceived msg
            :: broadcast { s with seenAlertIds := s.seenAlertIds ++ [msg.id] }
                 (serialize { msg with ttl := msg.ttl - 1 }) (some sender))
          = sentBytes (broadcast { s with seenAlertIds := s.seenAlertIds ++ [msg.id] }
                 (serialize { msg with ttl := msg.ttl - 1 }) (some sender)) from rfl,
        sentBytes_broadcast]
    · intro he
      rw [he] at ht
      exact absurd ht (by norm_num)
  · have h1 := handleIncoming_fresh_nofwd s json sender msg hdes hfresh ht
    refine ⟨?_, ?_, fun h => absurd h ht, ?_, hsend⟩
    · constructor
      · intro hcount
        rw [h1] at hcount
        dsimp only at hcount
        simp [List.countP_cons, isStatusAct] at hcount
      · intro h; exact absurd h ht
    · rw [h1, if_neg ht]
      dsimp only
      simp [sentBytes, List.filterMap_cons]
    · intro he
      rw [h1]

theorem c3_witness :
    deserialize (serialize (AlertMessage.mk "id2" "hi" 5 8))
      = some (AlertMessage.mk "id2" "hi" 5 8)
    ∧ (AlertMessage.mk "id2" "hi" 5 8).id ∉ sampleConnected2.seenAlertIds
    ∧ ttlDiscipline sampleConnected2 (serialize (AlertMessage.mk "id2" "hi" 5 8)) "B"
        "txt" "id9" 0 (AlertMessage.mk "id2" "hi" 5 8) :=
  ⟨by decide, by decide,
   c3_ttl_discipline sampleConnected2 (serialize (AlertMessage.mk "id2" "hi" 5 8)) "B"
     "txt" "id9" 0 (AlertMessage.mk "id2" "hi" 5 8) (by decide) (by decide)⟩

/-- Claim C4: `broadcast` issues `sendPayload` to exactly the connected
endpoints minus the excluded sender, and its last action — also when the
recipient list is empty — is a status event whose message matches the
pattern `Status: N peers connected` with N the number of connected
endpoints. -/
theorem c4_broadcast_contract (s : MeshState) (json : String) (ex : Option String) :
    sendTargets (broadcast s json ex)
      = (match ex with
          | some e => s.connectedEndpoints.filter (fun x => x != e)
          | none => s.connectedEndpoints)
    ∧ (broadcast s json ex).getLast?
      = some (MeshAction.status ("📊 "
          ++ ("Status: " ++ toString s.connectedEndpoints.length ++ " peers connected"))) := by
  refine ⟨sendTargets_broadcast s json ex, ?_⟩
  rw [broadcast_eq, List.getLast?_concat, statusString_split]

/-- Claim C5: the PeerTable disjointness invariant — in every reachable
engine state no key of the lost-endpoints map is a connected endpoint. -/
theorem c5_peer_disjoint (s : MeshState) (h : Reachable s) : PeerDisjoint s := by
  induction h with
  | init =>
    intro p hp
    exact absurd hp (List.not_mem_nil p)
  | step i hr ih => exact peerDisjoint_step i _ ih

theorem c5_witness :
    ("B", (5 : Int)) ∈ ((applyInput (EngineInput.endpointLost "B" 5)
        ((applyInput (EngineInput.connectionResult "A" true 0) initMeshState).1)).1).lostEndpoints
    ∧ ("B", (5 : Int)).1 ∉ ((applyInput (EngineInput.endpointLost "B" 5)
        ((applyInput (EngineInput.connectionResult "A" true 0) initMeshState).1)).1).connectedEndpoints :=
  ⟨by decide,
   c5_peer_disjoint _
     (Reachable.step (EngineInput.endpointLost "B" 5)
       (Reachable.step (EngineInput.connectionResult "A" true 0) Reachable.init))
     ("B", (5 : Int)) (by decide)⟩

theorem goodWire_idOfNat (n : Nat) : goodWire (idOfNat n) := by
  intro c hc
  have he : c = 'a' := List.eq_of_mem_replicate hc
  subst he
  decide

theorem idOfNat_inj (m n : Nat) (h : idOfNat m = idOfNat n) : m = n := by
  unfold idOfNat at h
  have h2 : List.replicate m 'a' = List.replicate n 'a' := congrArg String.data h
  have h3 := congrArg List.length h2
  simpa using h3

theorem seenChain_seen (n : Nat) :
    (seenChain n).seenAlertIds = (List.range n).map (fun k => idOfNat (k + 1)) := by
  induction n with
  | zero => rfl
  | succ m ih =>
    rw [seenChain]
    simp only [applyInput]
    have hdes : deserialize (seenPayload (m + 1))
        = some (AlertMessage.mk (idOfNat (m + 1)) "x" 0 8) :=
      deserialize_serialize _ (goodWire_idOfNat _) (show goodWire "x" by decide)
    have hfresh : (AlertMessage.mk (idOfNat (m + 1)) "x" 0 8).id
        ∉ (seenChain m).seenAlertIds := by
      rw [ih]
      intro hmem
      simp only [List.mem_map, List.mem_range] at hmem
      obtain ⟨k, hk, he⟩ := hmem
      have := idOfNat_inj _ _ he
      omega
    rw [handleIncoming_fresh_fwd _ _ _ _ hdes hfresh (show (1 : Int) < 8 by decide)]
    dsimp only
    rw [ih, List.range_succ]
    simp

theorem seenChain_reachable (n : Nat) : Reachable (seenChain n) := by
  induction n with
  | zero => exact Reachable.init
  | succ m ih =>
    rw [seenChain]
    exact Reachable.step _ ih

theorem seenChain_length (n : Nat) : (seenChain n).seenAlertIds.length = n := by
  rw [seenChain_seen]
  simp

/-- Claim C6 (counterexample): the seen set is not bounded by any cap: after
4097 distinct inbound alerts its size is 4097 (already beyond the
recommended cap of 4096), and no cap bounds it over all reachable states —
the code never evicts. -/
theorem c6_counterexample :
    Reachable (seenChain 4097)
    ∧ (seenChain 4097).seenAlertIds.length = 4097
    ∧ ((∃ cap : Nat, ∀ s : MeshState, Reachable s → s.seenAlertIds.length ≤ cap) → False) :=
  ⟨seenChain_reachable 4097, seenChain_length 4097, fun hcap => by
    obtain ⟨cap, hcap⟩ := hcap
    have h1 := hcap (seenChain (cap + 1)) (seenChain_reachable (cap + 1))
    rw [seenChain_length] at h1
    omega⟩

/-- Claim C6 (amended): the seen set is unbounded and no transition ever
evicts from it — every engine step extends `seenAlertIds` (the previous list
is a prefix of the new one), including service destruction, which does not
clear it. -/
theorem c6_seen_unbounded (i : EngineInput) (s : MeshState) :
    s.seenAlertIds <+: (applyInput i s).1.seenAlertIds :=
  seen_isPrefix_step i s

theorem startDiscovery_not_mem_broadcast (s : MeshState) (json : String)
    (ex : Option String) :
    MeshAction.transportStartDiscovery ∉ broadcast s json ex := by
  rw [broadcast_eq]
  intro hmem
  rcases List.mem_append.mp hmem with h | h
  · obtain ⟨e, -, he⟩ := List.mem_map.mp h
    simp at he
  · simp at h

theorem handleIncoming_no_transport_start (s : MeshState) (json sender : String) :
    MeshAction.transportStartDiscovery ∉ (handleIncoming s json sender).2 := by
  cases hdes : deserialize json with
  | none => unfold handleIncoming; rw [hdes]; simp
  | some msg =>
    by_cases hm : msg.id ∈ s.seenAlertIds
    · rw [handleIncoming_dup s json sender msg hdes hm]
      simp
    · by_cases ht : msg.ttl > 1
      · rw [handleIncoming_fresh_fwd s json sender msg hdes hm ht]
        dsimp only
        intro hmem
        rcases List.mem_cons.mp hmem with h | h
        · simp at h
        · exact startDiscovery_not_mem_broadcast _ _ _ h
      · rw [handleIncoming_fresh_nofwd s json sender msg hdes hm ht]
        simp

/-- Engine-global guard: whichever input the engine processes, a transport
start-discovery action is only emitted from a state with
`isStoppingDiscovery = false` — every emission site in the service checks
the flag first. -/
theorem no_transport_start_while_stopping (i : EngineInput) (s : MeshState)
    (hmem : MeshAction.transportStartDiscovery ∈ (applyInput i s).2) :
    s.isStoppingDiscovery = false := by
  cases i with
  | connectionResult e ok now =>
    simp only [applyInput, onConnectionResult] at hmem
    split_ifs at hmem <;> simp at hmem
  | disconnected e now =>
    simp only [applyInput, onDisconnected] at hmem
    split_ifs at hmem with h1 h2
    · simp at h2
      tauto
    · simp at hmem
    · simp at hmem
  | reconnectProbeFired e now =>
    simp only [applyInput, reconnectProbe] at hmem
    by_cases hc : s.connectedEndpoints.contains e = true
    · rw [if_pos hc] at hmem
      simp at hmem
    · rw [if_neg hc] at hmem
      cases hl : lookupLost e s.lostEndpoints with
      | none =>
        rw [hl] at hmem
        simp at hmem
      | some t =>
        rw [hl] at hmem
        dsimp only at hmem
        by_cases htime : now - t < 120000
        · rw [if_pos htime] at hmem
          by_cases hg : (!s.isDiscovering && !s.isStoppingDiscovery) = true
          · simp at hg
            tauto
          · rw [if_neg hg] at hmem
            simp at hmem
        · rw [if_neg htime] at hmem
          simp at hmem
  | endpointFound e =>
    simp only [applyInput, onEndpointFound] at hmem
    split_ifs at hmem <;> simp at hmem
  | connRetryFailed e now =>
    simp only [applyInput, onConnRetryFailed] at hmem
    split_ifs at hmem <;> simp at hmem
  | endpointLost e now =>
    simp only [applyInput, onEndpointLost] at hmem
    by_cases hg : (s.connectedEndpoints.contains e && !s.isDiscovering
        && !s.isStoppingDiscovery) = true
    · simp at hg
      tauto
    · rw [if_neg hg] at hmem
      simp at hmem
  | maintenanceTick now =>
    simp only [applyInput, discoveryMaintenance] at hmem
    by_cases hg : ((!(s.lostEndpoints.filter
          (fun p => !(decide (now - p.2 > 120000)))).isEmpty
        || s.connectedEndpoints.isEmpty)
        && !s.isDiscovering && !s.isStoppingDiscovery) = true
    · simp at hg
      tauto
    · rw [if_neg hg] at hmem
      simp at hmem
  | statusCheckTick =>
    simp only [applyInput, statusTick] at hmem
    rcases List.mem_append.mp hmem with h | h
    · rcases List.mem_append.mp h with h | h
      · simp at h
      · by_cases ha : (!s.isAdvertising) = true
        · rw [if_pos ha] at h
          simp at h
        · rw [if_neg ha] at h
          simp at h
    · by_cases hg : (!s.isDiscovering && !s.isStoppingDiscovery
          && (!s.lostEndpoints.isEmpty || s.connectedEndpoints.isEmpty)) = true
      · simp at hg
        tauto
      · rw [if_neg hg] at h
        simp at h
  | payloadReceived json sender =>
    exact absurd hmem (handleIncoming_no_transport_start s json sender)
  | sendAlertCmd text fid now =>
    simp only [applyInput, sendAlert] at hmem
    exact absurd hmem (startDiscovery_not_mem_broadcast _ _ _)
  | startDiscoveryCall =>
    simp only [applyInput, startDiscovery] at hmem
    split_ifs at hmem with h1 h2
    · simp at hmem
    · simp at hmem
    · simpa using h2
  | stopDiscoveryCall ok =>
    simp only [applyInput, stopDiscovery] at hmem
    split_ifs at hmem <;> simp at hmem
  | discoveryStartSucceeded =>
    simp only [applyInput, onDiscoveryStartSuccess] at hmem
    simp at hmem
  | discoveryStartFailed already =>
    simp only [applyInput, onDiscoveryStartFailure] at hmem
    split_ifs at hmem <;> simp at hmem
  | advertisingStartSucceeded =>
    simp only [applyInput, onAdvertisingStartSuccess] at hmem
    simp at hmem
  | advertisingStartFailed =>
    simp only [applyInput, onAdvertisingStartFailure] at hmem
    simp at hmem
  | startAdvertisingCall =>
    simp only [applyInput, startAdvertising] at hmem
    split_ifs at hmem <;> simp at hmem
  | serviceDestroyed =>
    simp only [applyInput, onDestroy] at hmem
    simp at hmem

/-- Claim C7: while `isStoppingDiscovery` is set, `startDiscovery` only sets
`pendingDiscoveryStart` (or does nothing when already discovering) and never
invokes the transport; no engine input whatsoever (callback, timer or host
call) emits a transport start-discovery from a state with
`isStoppingDiscovery` set; `startDiscovery` itself issues the transport call
only with both flags clear; and a stop that completes with a pending start
schedules a start 1000 ms later. -/
theorem c7_discovery_protocol : discoveryProtocol := by
  refine ⟨?_, ?_, ?_, ?_⟩
  · intro s hs
    unfold startDiscovery
    by_cases hd : s.isDiscovering = true
    · rw [if_pos hd, if_pos hd]
    · rw [if_neg hd, if_neg hd, if_pos hs]
  · exact no_transport_start_while_stopping
  · intro s hmem
    unfold startDiscovery at hmem
    by_cases hd : s.isDiscovering = true
    · rw [if_pos hd] at hmem
      simp at hmem
    · by_cases hst : s.isStoppingDiscovery = true
      · rw [if_neg hd, if_pos hst] at hmem
        simp at hmem
      · constructor
        · simpa using hst
        · simpa using hd
  · intro s hd hst hp
    simp [stopDiscovery, hd, hst, hp]

/-- Claim C8: `sendAlert` serializes the alert built from the fresh id, the
given text, the current time and ttl 8, sends it to every currently connected
endpoint with no exclusion, and emits no AlertReceived for the originating
node's own alert. -/
theorem c8_send_alert (s : MeshState) (text freshId : String) (now : Int) :
    sendAlert s text freshId now
      = s.connectedEndpoints.map (fun e => MeshAction.sendPayload e
          (serialize (AlertMessage.mk freshId text now 8)))
        ++ [MeshAction.status ("📊 Status: " ++ toString s.connectedEndpoints.length
              ++ " peers connected")]
    ∧ (sendAlert s text freshId now).countP isAlertAct = 0 := by
  constructor
  · rw [sendAlert, broadcast_eq]
  · rw [sendAlert]
    exact countP_alert_broadcast s _ none

/-- Claim C9 (counterexample): `MeshModule.sendAlert` with the empty string
does not reject — it resolves and dispatches the empty text — so "rejects iff
text is empty" is false at the empty string. -/
theorem c9_counterexample :
    (moduleSendAlert "").rejected = false
    ∧ (moduleSendAlert "").dispatchedText = some ""
    ∧ ((((moduleSendAlert "").rejected = true) ↔ ("" : String) = "") → False) :=
  ⟨rfl, rfl, fun h => by
    have h2 := h.mpr rfl
    simp [moduleSendAlert] at h2⟩

/-- Claim C9 (amended): `sendAlert` never rejects its caller — for every
text, the empty string included, the module resolves and dispatches the
SEND_ALERT intent with exactly that text, and the service originates an
alert with it. -/
theorem c9_send_alert_never_rejects (t : String) (s : MeshState)
    (freshId : String) (now : Int) :
    (moduleSendAlert t).rejected = false
    ∧ (moduleSendAlert t).dispatchedText = some t
    ∧ onStartCommand s (some "SEND_ALERT") (some t) freshId now
        = sendAlert s t freshId now := by
  refine ⟨rfl, rfl, ?_⟩
  unfold onStartCommand
  rw [if_pos rfl]
  rfl

/-- Claim C10: origination leaves the engine state (in particular the seen
set) unchanged, so the originated payload arriving back inbound at the
originating node is treated as new: it is emitted as an AlertReceived for the
node's own alert and re-forwarded with ttl 7. -/
theorem c10_origination_echo (s : MeshState) (text fid sender : String) (now : Int)
    (htext : goodWire text) (hid : goodWire fid) (hfresh : fid ∉ s.seenAlertIds) :
    originationEcho s text fid sender now := by
  constructor
  · rfl
  · have hdes := deserialize_serialize (AlertMessage.mk fid text now 8) hid htext
    have h := handleIncoming_fresh_fwd s _ sender _ hdes hfresh (show (1 : Int) < 8 by decide)
    rw [h]
    have h71 : ({ AlertMessage.mk fid text now 8 with
        ttl := (AlertMessage.mk fid text now 8).ttl - 1 }) = AlertMessage.mk fid text now 7 := by
      show AlertMessage.mk fid text now ((8 : Int) - 1) = AlertMessage.mk fid text now 7
      norm_num
    rw [h71]

theorem c10_witness :
    goodWire "hello" ∧ goodWire "id0" ∧ ("id0" ∉ sampleConnected2.seenAlertIds)
    ∧ originationEcho sampleConnected2 "hello" "id0" "B" 5 :=
  ⟨by decide, by decide, by decide,
   c10_origination_echo sampleConnected2 "hello" "id0" "B" 5
     (by decide) (by decide) (by decide)⟩
